import Mathlib

/-!
Verification development for `lib/winston-slack-webhook.js`.

The source is a winston transport that posts log records to a Slack webhook
and protects the endpoint with an exponential-decay rate limiter.  This file
is a shallow embedding of that code:

* JavaScript numbers are modelled by `JsNum`: a finite real, `+Infinity`,
  `-Infinity`, or `NaN`, with the IEEE-754 behaviour of the arithmetic the
  source actually performs (multiplication, addition, division, negation,
  `Math.exp`, `Math.log`, and the `>` comparison).  Signed zero is collapsed
  to a single zero; no expression in the source distinguishes `+0` from `-0`
  on any path a claim touches.  Finite arithmetic is exact real arithmetic.
* `Date` values are modelled as real numbers of milliseconds; within one
  synchronous `log` call all `new Date()` reads are modelled as one instant.
* The mutable transport object is the structure `SlackWebHook`; each method
  becomes a function of the state returning the updated state.
* A network POST performed by `sendSlackLog` is recorded as a `SendEvent`
  (the arguments of the call plus the formatted text); the serialized body
  of such a POST is `buildPayload` applied to the event's fields.
* `Object.keys(meta)` on `null`/`undefined` throws; fallible code returns
  `Except JsError`.  A `TypeError` escaping `log` is recorded in the
  `thrown` field of `LogResult` together with the mutations and sends that
  happened before the throw.
* The HTTP response handler installed by `https.request` is modelled by
  `reactToDelivery`.  The source installs no `error` listener on the
  request object, so a transport-level failure raises Node's default
  uncaught-exception behaviour; this is the `uncaught` reaction.

Spec-to-source name map: `projectedScore` is `getLimitSentAtDate`,
`isExceeded` is `isRateLimitExceeded`, `recordSend` is `incrementLimitSent`,
`decayRate` is `limitLambda`, `sentScore` is `limitSent`, `lastUpdateTime`
is `limitLastUpdate`, `discardedCount` is `limitNumDiscarded`.
-/

open scoped Classical

namespace WinstonSlack

/-- A JavaScript number: a finite real, `+Infinity`, `-Infinity`, or `NaN`.
Signed zero is collapsed into the single finite zero. -/
inductive JsNum where
  | fin : ℝ → JsNum
  | inf : JsNum
  | negInf : JsNum
  | nan : JsNum

/-- IEEE addition as used by the source (`x + 1`, `1/(r*w) + 1`). -/
noncomputable def jsAdd : JsNum → JsNum → JsNum
  | .fin a, .fin b => .fin (a + b)
  | .fin _, .inf => .inf
  | .fin _, .negInf => .negInf
  | .fin _, .nan => .nan
  | .inf, .fin _ => .inf
  | .inf, .inf => .inf
  | .inf, .negInf => .nan
  | .inf, .nan => .nan
  | .negInf, .fin _ => .negInf
  | .negInf, .inf => .nan
  | .negInf, .negInf => .negInf
  | .negInf, .nan => .nan
  | .nan, _ => .nan

/-- IEEE multiplication: infinities keep the sign of the finite factor and
`0 * Infinity = NaN`; `NaN` propagates. -/
noncomputable def jsMul : JsNum → JsNum → JsNum
  | .fin a, .fin b => .fin (a * b)
  | .fin a, .inf => if 0 < a then .inf else if a < 0 then .negInf else .nan
  | .fin a, .negInf => if 0 < a then .negInf else if a < 0 then .inf else .nan
  | .fin _, .nan => .nan
  | .inf, .fin b => if 0 < b then .inf else if b < 0 then .negInf else .nan
  | .inf, .inf => .inf
  | .inf, .negInf => .negInf
  | .inf, .nan => .nan
  | .negInf, .fin b => if 0 < b then .negInf else if b < 0 then .inf else .nan
  | .negInf, .inf => .negInf
  | .negInf, .negInf => .inf
  | .negInf, .nan => .nan
  | .nan, _ => .nan

/-- IEEE division as used by the source (`1 / (r * w)`): a nonzero finite
value divided by zero gives a signed infinity, a finite value divided by an
infinity gives zero, `0 / 0` and `Infinity / Infinity` give `NaN`. -/
noncomputable def jsDiv : JsNum → JsNum → JsNum
  | .fin a, .fin b =>
      if b = 0 then (if 0 < a then .inf else if a < 0 then .negInf else .nan)
      else .fin (a / b)
  | .fin _, .inf => .fin 0
  | .fin _, .negInf => .fin 0
  | .fin _, .nan => .nan
  | .inf, .fin b => if 0 ≤ b then .inf else .negInf
  | .inf, .negInf => .nan
  | .inf, .inf => .nan
  | .inf, .nan => .nan
  | .negInf, .fin b => if 0 ≤ b then .negInf else .inf
  | .negInf, .inf => .nan
  | .negInf, .negInf => .nan
  | .negInf, .nan => .nan
  | .nan, _ => .nan

/-- IEEE negation. -/
def jsNeg : JsNum → JsNum
  | .fin a => .fin (-a)
  | .inf => .negInf
  | .negInf => .inf
  | .nan => .nan

/-- `Math.exp`. -/
noncomputable def jsExp : JsNum → JsNum
  | .fin a => .fin (Real.exp a)
  | .inf => .inf
  | .negInf => .fin 0
  | .nan => .nan

/-- `Math.log`: `log 0 = -Infinity`, negative arguments give `NaN`. -/
noncomputable def jsLog : JsNum → JsNum
  | .fin a => if 0 < a then .fin (Real.log a) else if a = 0 then .negInf else .nan
  | .inf => .inf
  | .negInf => .nan
  | .nan => .nan

/-- The JavaScript `>` comparison: any comparison involving `NaN` is false,
and nothing is greater than `+Infinity`. -/
def jsGt : JsNum → JsNum → Prop
  | .fin a, .fin b => b < a
  | .inf, .fin _ => True
  | .inf, .negInf => True
  | .fin _, .negInf => True
  | _, _ => False

/-- JavaScript truthiness of a number: `0`, `-0` and `NaN` are falsy. -/
def jsTruthy : JsNum → Prop
  | .fin a => a ≠ 0
  | .inf => True
  | .negInf => True
  | .nan => False

/-- The `options.field || default` idiom on a numeric option: an absent or
falsy value is replaced by the default. -/
noncomputable def jsOrNum (x : Option JsNum) (d : JsNum) : JsNum :=
  match x with
  | none => d
  | some v => if jsTruthy v then v else d

/-- The `options.field || default` idiom on a string option: an absent or
empty string is replaced by the default. -/
def jsOrString (x : Option String) (d : String) : String :=
  match x with
  | none => d
  | some s => if s = "" then d else s

/-- A metadata value, modelled by its `util.inspect` rendering. -/
structure JsValue where
  rendered : String

/-- The `meta` object: its own enumerable properties in insertion order. -/
abbrev Meta := List (String × JsValue)

/-- A completion callback handed to `log`: either the internal no-op used
for the synthetic discard notice, or a caller-supplied callback. -/
inductive Callback where
  | noop
  | user

/-- The options object accepted by the constructor; absent properties are
`none`. -/
structure Options where
  name : Option String
  level : Option String
  formatter : Option (String → String → Option Meta → String)
  webhookUrl : Option String
  channel : Option String
  username : Option String
  iconEmoji : Option String
  iconUrl : Option String
  unfurlLinks : Option Bool
  limitPerSecond : Option JsNum
  limitWindowSeconds : Option JsNum

/-- An options object with every property absent. -/
def emptyOptions : Options :=
  { name := none, level := none, formatter := none, webhookUrl := none,
    channel := none, username := none, iconEmoji := none, iconUrl := none,
    unfurlLinks := none, limitPerSecond := none, limitWindowSeconds := none }

/-- The transport instance: configuration plus the mutable rate-limiter
fields.  The `url.parse` derived fields (`host`, `port`, `path`) only feed
the HTTP transport and are outside the modelled surface. -/
structure SlackWebHook where
  name : String
  level : String
  formatter : Option (String → String → Option Meta → String)
  webhookUrl : String
  channel : String
  username : String
  iconEmoji : String
  iconUrl : String
  unfurlLinks : Bool
  limitPerSecond : JsNum
  limitWindowSeconds : JsNum
  limitLambda : JsNum
  limitSent : JsNum
  limitLastUpdate : ℝ
  limitNumDiscarded : ℕ

/-- The constructor `SlackWebHook(options)`, called at time `now`
(`this.limitLastUpdate = new Date()`). -/
noncomputable def mkSlackWebHook (options : Options) (now : ℝ) : SlackWebHook :=
  let limitPerSecond := jsOrNum options.limitPerSecond .inf
  let limitWindowSeconds := jsOrNum options.limitWindowSeconds (.fin 30)
  { name := jsOrString options.name "slackWebHook"
    level := jsOrString options.level "info"
    formatter := options.formatter
    webhookUrl := jsOrString options.webhookUrl ""
    channel := jsOrString options.channel ""
    username := jsOrString options.username ""
    iconEmoji := jsOrString options.iconEmoji ""
    iconUrl := jsOrString options.iconUrl ""
    unfurlLinks := options.unfurlLinks.getD false
    limitPerSecond := limitPerSecond
    limitWindowSeconds := limitWindowSeconds
    limitLambda := jsMul limitPerSecond
      (jsLog (jsAdd (jsDiv (.fin 1) (jsMul limitPerSecond limitWindowSeconds)) (.fin 1)))
    limitSent := .fin 0
    limitLastUpdate := now
    limitNumDiscarded := 0 }

/-- `getLimitSentAtDate(date)`: the sent score projected forward from the
last update to `date` by exponential decay (the spec's `projectedScore`). -/
noncomputable def SlackWebHook.getLimitSentAtDate (s : SlackWebHook) (date : ℝ) : JsNum :=
  jsMul s.limitSent (jsExp (jsMul (jsNeg s.limitLambda) (.fin ((date - s.limitLastUpdate) / 1000))))

/-- `isRateLimitExceeded()` evaluated with `new Date()` equal to `now`
(the spec's `isExceeded`). -/
noncomputable def SlackWebHook.isRateLimitExceeded (s : SlackWebHook) (now : ℝ) : Prop :=
  jsGt (s.getLimitSentAtDate now) (jsMul s.limitPerSecond s.limitWindowSeconds)

/-- `incrementLimitSent()` evaluated at `now` (the spec's `recordSend`). -/
noncomputable def SlackWebHook.incrementLimitSent (s : SlackWebHook) (now : ℝ) : SlackWebHook :=
  { s with
    limitSent := jsAdd (s.getLimitSentAtDate now) (.fin 1)
    limitLastUpdate := now }

/-- A JavaScript exception escaping the sink. -/
inductive JsError where
  | typeError

/-- One network POST issued by `sendSlackLog`: the call's arguments plus
the text after the optional formatter ran.  The serialized request body is
`buildPayload` applied to these fields. -/
structure SendEvent where
  level : String
  msg : String
  text : String
  meta : Meta
  cb : Callback

/-- One attachment of the Slack payload. -/
structure Attachment where
  fallback : String
  text : String
  color : String

/-- The serialized Slack payload. -/
structure Payload where
  text : String
  channel : String
  username : String
  icon_emoji : String
  icon_url : String
  unfurl_links : Bool
  attachments : Option (List Attachment)

/-- The `switch (level)` choosing the attachment color. -/
def colorForLevel (level : String) : String :=
  if level = "error" then "danger"
  else if level = "warn" then "warning"
  else "good"

/-- The payload construction inside `sendSlackLog`, after the formatter has
produced the final text and `meta` is known to be a real object. -/
def buildPayload (s : SlackWebHook) (level msgF : String) (m : Meta) : Payload :=
  let base : Payload :=
    { text := msgF, channel := s.channel, username := s.username,
      icon_emoji := s.iconEmoji, icon_url := s.iconUrl,
      unfurl_links := s.unfurlLinks, attachments := none }
  if 0 < m.length then
    { base with attachments := some (m.map (fun kv =>
        { fallback := kv.2.rendered,
          text := kv.1 ++ ": " ++ kv.2.rendered,
          color := colorForLevel level })) }
  else base

/-- `sendSlackLog(level, msg, meta, callback)`: runs the formatter, then
builds and posts the payload.  `Object.keys(meta)` throws a `TypeError`
when `meta` is `null` or `undefined`; otherwise the POST is issued and is
recorded as a `SendEvent`. -/
def SlackWebHook.sendSlackLog (s : SlackWebHook) (level msg : String) (meta : Option Meta)
    (cb : Callback) : Except JsError SendEvent :=
  let msgF := match s.formatter with
    | some f => f level msg meta
    | none => msg
  match meta with
  | none => Except.error JsError.typeError
  | some m => Except.ok { level := level, msg := msg, text := msgF, meta := m, cb := cb }

/-- The observable result of one `log` call: the state after the call, the
POSTs issued during it in order, and the exception that escaped it, if any.
When an exception escaped, `state` and `sends` reflect the mutations and
POSTs that happened before the throw. -/
structure LogResult where
  state : SlackWebHook
  sends : List SendEvent
  thrown : Option JsError

/-- `log(level, msg, meta, callback)` evaluated at `now`.  Over budget, it
only increments the discard counter.  Otherwise a pending discard notice is
flushed first (with empty metadata and the no-op callback), the counter is
reset and a send recorded; then the real message is posted and a second
send recorded.  Sends are recorded at send-attempt time; no delivery
outcome is consulted. -/
noncomputable def SlackWebHook.log (s : SlackWebHook) (level msg : String) (meta : Option Meta)
    (cb : Callback) (now : ℝ) : LogResult :=
  if s.isRateLimitExceeded now then
    { state := { s with limitNumDiscarded := s.limitNumDiscarded + 1 },
      sends := [], thrown := none }
  else if 0 < s.limitNumDiscarded then
    match s.sendSlackLog "warn"
        ("winston-slack-webhook discarded " ++ toString s.limitNumDiscarded ++ " messages")
        (some []) Callback.noop with
    | .error e => { state := s, sends := [], thrown := some e }
    | .ok noticeEv =>
      let s1 := SlackWebHook.incrementLimitSent { s with limitNumDiscarded := 0 } now
      match s1.sendSlackLog level msg meta cb with
      | .error e => { state := s1, sends := [noticeEv], thrown := some e }
      | .ok ev =>
        { state := s1.incrementLimitSent now, sends := [noticeEv, ev], thrown := none }
  else
    match s.sendSlackLog level msg meta cb with
    | .error e => { state := s, sends := [], thrown := some e }
    | .ok ev => { state := s.incrementLimitSent now, sends := [ev], thrown := none }

/-- The outcome of one HTTPS request: a response with a status code and the
accumulated body, or a transport-level failure. -/
inductive DeliveryOutcome where
  | response (statusCode : ℕ) (body : String)
  | transportFailure (err : String)

/-- What the sink does when a delivery completes: invoke the callback with
a success value, invoke it with an error value, or let an exception escape
uncaught. -/
inductive SinkReaction where
  | invokeSuccess (cb : Callback) (body : String)
  | invokeError (cb : Callback) (errMsg : String)
  | uncaught (err : String)

/-- The response handling of `sendSlackLog`: the handler passed to
`https.request` invokes the callback once the body has been accumulated,
with `null` and the body on status 200 and with an `Error` naming the
status code and body otherwise.  No `error` listener is installed on the
request object, so a transport failure raises an uncaught exception. -/
def reactToDelivery (cb : Callback) : DeliveryOutcome → SinkReaction
  | .response code body =>
      if code = 200 then .invokeSuccess cb body
      else .invokeError cb ("https request fails. statusCode " ++ toString code ++ ", body " ++ body)
  | .transportFailure e => .uncaught e

/-- One externally triggered operation on the sink, for stating properties
over arbitrary interleavings. -/
inductive SinkOp where
  | logOp (level msg : String) (meta : Option Meta) (cb : Callback) (t : ℝ)
  | recordOp (t : ℝ)

/-- Runs a sequence of operations against the sink. -/
noncomputable def runOps (s : SlackWebHook) : List SinkOp → SlackWebHook
  | [] => s
  | .logOp level msg meta cb t :: rest => runOps (s.log level msg meta cb t).state rest
  | .recordOp t :: rest => runOps (s.incrementLimitSent t) rest

/-- An options object selecting a finite rate and window. -/
noncomputable def limiterOptions (r w : ℝ) : Options :=
  { emptyOptions with limitPerSecond := some (.fin r), limitWindowSeconds := some (.fin w) }

/-- The state after `n` sends recorded at times `ts, ts + ms, ts + 2*ms, …`
(milliseconds). -/
noncomputable def steadySends (s0 : SlackWebHook) (ts ms : ℝ) : ℕ → SlackWebHook
  | 0 => s0
  | n + 1 => (steadySends s0 ts ms n).incrementLimitSent (ts + n * ms)

end WinstonSlack

namespace WinstonSlack

lemma jsGt_fin_fin (a b : ℝ) : jsGt (.fin a) (.fin b) ↔ b < a := Iff.rfl

lemma not_jsGt_inf (x : JsNum) : ¬ jsGt x .inf := by cases x <;> simp [jsGt]

lemma getLimitSentAtDate_fin (s : SlackWebHook) (sc lam t : ℝ)
    (hs : s.limitSent = .fin sc) (hlam : s.limitLambda = .fin lam) :
    s.getLimitSentAtDate t = .fin (sc * Real.exp (-lam * ((t - s.limitLastUpdate) / 1000))) := by
  simp [SlackWebHook.getLimitSentAtDate, hs, hlam, jsNeg, jsMul, jsExp]

lemma isRateLimitExceeded_iff_fin (s : SlackWebHook) (sc lam r w now : ℝ)
    (hs : s.limitSent = .fin sc) (hlam : s.limitLambda = .fin lam)
    (hr : s.limitPerSecond = .fin r) (hw : s.limitWindowSeconds = .fin w) :
    s.isRateLimitExceeded now ↔
      r * w < sc * Real.exp (-lam * ((now - s.limitLastUpdate) / 1000)) := by
  rw [SlackWebHook.isRateLimitExceeded, getLimitSentAtDate_fin s sc lam now hs hlam, hr, hw]
  simp [jsMul, jsGt]

/-- A state over budget at every instant: decay rate zero, score 2, budget 1. -/
def sampleOver : SlackWebHook :=
  { name := "slackWebHook", level := "info", formatter := none, webhookUrl := "",
    channel := "", username := "", iconEmoji := "", iconUrl := "", unfurlLinks := false,
    limitPerSecond := .fin 1, limitWindowSeconds := .fin 1, limitLambda := .fin 0,
    limitSent := .fin 2, limitLastUpdate := 0, limitNumDiscarded := 0 }

/-- A state under budget at every instant: score 0, budget 1. -/
def sampleUnder : SlackWebHook :=
  { sampleOver with limitSent := .fin 0 }

lemma sampleOver_exceeded (t : ℝ) : SlackWebHook.isRateLimitExceeded sampleOver t := by
  rw [isRateLimitExceeded_iff_fin sampleOver 2 0 1 1 t rfl rfl rfl rfl]
  norm_num

lemma sampleUnder_not_exceeded (t : ℝ) : ¬ SlackWebHook.isRateLimitExceeded sampleUnder t := by
  rw [isRateLimitExceeded_iff_fin sampleUnder 0 0 1 1 t rfl rfl rfl rfl]
  norm_num

/-- C2: `isRateLimitExceeded` is true exactly when the score projected to the
query instant strictly exceeds `ratePerSecond * windowSeconds` (elapsed time
is milliseconds over 1000); it is a pure function of the state and the query
time (by construction it returns a proposition and touches no field), and
exact equality with the budget never reports exceeded. -/
theorem C2_isExceeded_strict_pure (s : SlackWebHook) (sc lam r w now : ℝ)
    (hs : s.limitSent = .fin sc) (hlam : s.limitLambda = .fin lam)
    (hr : s.limitPerSecond = .fin r) (hw : s.limitWindowSeconds = .fin w) :
    (s.isRateLimitExceeded now ↔
      sc * Real.exp (-lam * ((now - s.limitLastUpdate) / 1000)) > r * w)
    ∧ (sc * Real.exp (-lam * ((now - s.limitLastUpdate) / 1000)) = r * w →
      ¬ s.isRateLimitExceeded now) := by
  have h := isRateLimitExceeded_iff_fin s sc lam r w now hs hlam hr hw
  refine ⟨h, fun he hx => ?_⟩
  rw [h, he] at hx
  exact lt_irrefl _ hx

/-- C2 witness: the theorem evaluated on a concrete over-budget state. -/
theorem C2_witness : SlackWebHook.isRateLimitExceeded sampleOver 0 := by
  refine (C2_isExceeded_strict_pure sampleOver 2 0 1 1 0 rfl rfl rfl rfl).1.mpr ?_
  norm_num

/-- C3: `incrementLimitSent` sets the score to the projected score plus one
and the last-update time to now, touching nothing else; and across the three
branches of `log` it runs exactly once per issued POST (one for the single
send, two when a discard notice is flushed first) and never on the discard
branch. -/
theorem C3_recordSend_per_transmission (s : SlackWebHook) (now : ℝ) (level msg : String)
    (m : Meta) (cb : Callback) :
    ((s.incrementLimitSent now).limitSent = jsAdd (s.getLimitSentAtDate now) (.fin 1)
      ∧ (s.incrementLimitSent now).limitLastUpdate = now
      ∧ (s.incrementLimitSent now).limitPerSecond = s.limitPerSecond
      ∧ (s.incrementLimitSent now).limitWindowSeconds = s.limitWindowSeconds
      ∧ (s.incrementLimitSent now).limitLambda = s.limitLambda
      ∧ (s.incrementLimitSent now).limitNumDiscarded = s.limitNumDiscarded)
    ∧ (s.isRateLimitExceeded now →
        (s.log level msg (some m) cb now).sends = []
        ∧ (s.log level msg (some m) cb now).state.limitSent = s.limitSent
        ∧ (s.log level msg (some m) cb now).state.limitLastUpdate = s.limitLastUpdate)
    ∧ (¬ s.isRateLimitExceeded now → s.limitNumDiscarded = 0 →
        (s.log level msg (some m) cb now).sends.length = 1
        ∧ (s.log level msg (some m) cb now).state = s.incrementLimitSent now)
    ∧ (¬ s.isRateLimitExceeded now → 0 < s.limitNumDiscarded →
        (s.log level msg (some m) cb now).sends.length = 2
        ∧ (s.log level msg (some m) cb now).state =
            SlackWebHook.incrementLimitSent
              (SlackWebHook.incrementLimitSent { s with limitNumDiscarded := 0 } now) now) := by
  refine ⟨⟨rfl, rfl, rfl, rfl, rfl, rfl⟩, ?_, ?_, ?_⟩
  · intro h
    simp [SlackWebHook.log, h]
  · intro h hd
    simp [SlackWebHook.log, h, hd, SlackWebHook.sendSlackLog]
  · intro h hd
    simp [SlackWebHook.log, h, hd, Nat.pos_iff_ne_zero.mp hd, SlackWebHook.sendSlackLog]

/-- C3 witness: the theorem evaluated on a concrete over-budget state, where
the suppressed message triggers no send and no score update. -/
theorem C3_witness :
    SlackWebHook.isRateLimitExceeded sampleOver 0
    ∧ (SlackWebHook.log sampleOver "info" "hello" (some []) Callback.user 0).sends = [] := by
  have h := (C3_recordSend_per_transmission sampleOver 0 "info" "hello" [] Callback.user).2.1
    (sampleOver_exceeded 0)
  exact ⟨sampleOver_exceeded 0, h.1⟩

/-- C5: a `log` call made while the limit is exceeded only increments the
discard counter: it issues no POST (hence the caller's callback can never be
invoked for this message), throws nothing, and leaves every other field of
the state unchanged. -/
theorem C5_discard_frame (s : SlackWebHook) (level msg : String) (meta : Option Meta)
    (cb : Callback) (now : ℝ) (h : s.isRateLimitExceeded now) :
    s.log level msg meta cb now =
      { state := { s with limitNumDiscarded := s.limitNumDiscarded + 1 },
        sends := [], thrown := none } := by
  simp [SlackWebHook.log, h]

/-- C5 witness: the theorem evaluated on a concrete over-budget state. -/
theorem C5_witness :
    SlackWebHook.isRateLimitExceeded sampleOver 0
    ∧ SlackWebHook.log sampleOver "info" "hello" (some []) Callback.user 0 =
      { state := { sampleOver with limitNumDiscarded := sampleOver.limitNumDiscarded + 1 },
        sends := [], thrown := none } :=
  ⟨sampleOver_exceeded 0,
    C5_discard_frame sampleOver "info" "hello" (some []) Callback.user 0 (sampleOver_exceeded 0)⟩

end WinstonSlack

namespace WinstonSlack

/-- C9: when metadata is non-empty the payload carries exactly one attachment
per entry, in metadata order, with text `key: rendering`, fallback equal to
the rendering, and the severity color (`error` gives `danger`, `warn` gives
`warning`, anything else `good`); empty metadata yields no attachments
field. -/
theorem C9_attachments (s : SlackWebHook) (level msgF : String) (m : Meta) :
    (m ≠ [] →
      (buildPayload s level msgF m).attachments = some (m.map (fun kv =>
        { fallback := kv.2.rendered, text := kv.1 ++ ": " ++ kv.2.rendered,
          color := colorForLevel level }))
      ∧ ((buildPayload s level msgF m).attachments.getD []).length = m.length)
    ∧ (m = [] → (buildPayload s level msgF m).attachments = none)
    ∧ colorForLevel "error" = "danger"
    ∧ colorForLevel "warn" = "warning"
    ∧ (level ≠ "error" → level ≠ "warn" → colorForLevel level = "good") := by
  refine ⟨?_, ?_, by simp [colorForLevel], by simp [colorForLevel], ?_⟩
  · intro hm
    have hl : 0 < m.length := List.length_pos.mpr hm
    simp [buildPayload, hl]
  · intro hm
    subst hm
    simp [buildPayload]
  · intro h1 h2
    simp [colorForLevel, h1, h2]

/-- C9 witness: one metadata entry at level `error` yields exactly the one
`danger` attachment. -/
theorem C9_witness :
    ([(("user" : String), JsValue.mk "alice")] : Meta) ≠ []
    ∧ (buildPayload sampleOver "error" "boom" [(("user" : String), JsValue.mk "alice")]).attachments
      = some [{ fallback := "alice", text := "user" ++ ": " ++ "alice", color := colorForLevel "error" }] := by
  refine ⟨by simp, ?_⟩
  have h := (C9_attachments sampleOver "error" "boom" [(("user" : String), JsValue.mk "alice")]).1
    (by simp)
  rw [h.1]
  simp

/-- C10: a call that reaches the send path with `meta` equal to `null` or
`undefined` lets a `TypeError` escape (from `Object.keys(meta)`), the
original message is not delivered and its callback is never invoked; the
only POST that may have happened first is the synthetic discard notice,
which carries empty metadata and the no-op callback. -/
theorem C10_null_meta_typeError (s : SlackWebHook) (level msg : String) (cb : Callback)
    (now : ℝ) (h : ¬ s.isRateLimitExceeded now) :
    (s.log level msg none cb now).thrown = some JsError.typeError
    ∧ ∀ e ∈ (s.log level msg none cb now).sends, e.meta = [] ∧ e.cb = Callback.noop := by
  by_cases hd : 0 < s.limitNumDiscarded
  · simp [SlackWebHook.log, h, hd, SlackWebHook.sendSlackLog]
  · simp [SlackWebHook.log, h, hd, SlackWebHook.sendSlackLog]

/-- C10 witness: the theorem evaluated on a concrete under-budget state. -/
theorem C10_witness :
    ¬ SlackWebHook.isRateLimitExceeded sampleUnder 0
    ∧ (SlackWebHook.log sampleUnder "info" "hello" none Callback.user 0).thrown
      = some JsError.typeError :=
  ⟨sampleUnder_not_exceeded 0,
    (C10_null_meta_typeError sampleUnder "info" "hello" Callback.user 0
      (sampleUnder_not_exceeded 0)).1⟩

/-- C8 counterexample: a transport-level failure is not reported through the
callback; because `sendSlackLog` installs no `error` listener on the request
object it surfaces as an uncaught exception, contradicting the claim that no
exception ever crosses the sink boundary. -/
theorem C8_counterexample :
    reactToDelivery Callback.user (DeliveryOutcome.transportFailure "ECONNREFUSED")
      = SinkReaction.uncaught "ECONNREFUSED" := rfl

/-- C8 amended: every HTTP response is reported exactly once via the per-call
callback as a value (success with the body on status 200, otherwise an error
naming the status code and body); a transport or connection failure, however,
is not captured and escapes as an uncaught exception. -/
theorem C8_delivery_reporting (cb : Callback) (code : ℕ) (body : String) :
    (code = 200 → reactToDelivery cb (.response code body) = .invokeSuccess cb body)
    ∧ (code ≠ 200 → reactToDelivery cb (.response code body) =
        .invokeError cb ("https request fails. statusCode " ++ toString code ++ ", body " ++ body))
    ∧ (∀ e, reactToDelivery cb (.transportFailure e) = .uncaught e) := by
  refine ⟨?_, ?_, fun e => rfl⟩
  · rintro rfl
    simp [reactToDelivery]
  · intro h
    simp [reactToDelivery, h]

/-- C8 witness: a 500 response is reported through the callback as an error
naming the status and body. -/
theorem C8_witness :
    (500 : ℕ) ≠ 200
    ∧ reactToDelivery Callback.user (.response 500 "oops") =
        .invokeError Callback.user
          ("https request fails. statusCode " ++ toString (500 : ℕ) ++ ", body " ++ "oops") :=
  ⟨by decide, (C8_delivery_reporting Callback.user 500 "oops").2.1 (by decide)⟩

end WinstonSlack

namespace WinstonSlack

lemma not_exceeded_of_rate_inf (s : SlackWebHook) (now : ℝ)
    (hr : s.limitPerSecond = .inf) (hw : s.limitWindowSeconds = .fin 30) :
    ¬ s.isRateLimitExceeded now := by
  rw [SlackWebHook.isRateLimitExceeded, hr, hw]
  have hb : jsMul JsNum.inf (JsNum.fin 30) = JsNum.inf := by
    norm_num [jsMul]
  rw [hb]
  exact not_jsGt_inf _

lemma log_state_preserves_config (s : SlackWebHook) (level msg : String) (meta : Option Meta)
    (cb : Callback) (now : ℝ) :
    (s.log level msg meta cb now).state.limitPerSecond = s.limitPerSecond
    ∧ (s.log level msg meta cb now).state.limitWindowSeconds = s.limitWindowSeconds := by
  unfold SlackWebHook.log
  split_ifs with h1 h2
  · exact ⟨rfl, rfl⟩
  · cases meta <;>
      simp [SlackWebHook.sendSlackLog, SlackWebHook.incrementLimitSent]
  · cases meta <;>
      simp [SlackWebHook.sendSlackLog, SlackWebHook.incrementLimitSent]

lemma runOps_preserves_config (ops : List SinkOp) : ∀ s : SlackWebHook,
    (runOps s ops).limitPerSecond = s.limitPerSecond
    ∧ (runOps s ops).limitWindowSeconds = s.limitWindowSeconds := by
  induction ops with
  | nil => exact fun s => ⟨rfl, rfl⟩
  | cons op rest ih =>
    intro s
    cases op with
    | logOp level msg meta cb t =>
      have h := log_state_preserves_config s level msg meta cb t
      have h2 := ih (s.log level msg meta cb t).state
      rw [runOps]
      exact ⟨h2.1.trans h.1, h2.2.trans h.2⟩
    | recordOp t =>
      have h2 := ih (s.incrementLimitSent t)
      rw [runOps]
      exact ⟨h2.1, h2.2⟩

/-- C7: with `limitPerSecond` left at its default (`Infinity`), the limit
check fails on every call, for every interleaving of `log` and
`incrementLimitSent` operations at arbitrary times: the projected score is
compared against an infinite budget and nothing is greater than
`Infinity`. -/
theorem C7_infinity_never_exceeded (options : Options) (t0 : ℝ) (ops : List SinkOp) (now : ℝ)
    (hrate : options.limitPerSecond = none) (hwin : options.limitWindowSeconds = none) :
    ¬ SlackWebHook.isRateLimitExceeded (runOps (mkSlackWebHook options t0) ops) now := by
  have h0 : (mkSlackWebHook options t0).limitPerSecond = .inf := by
    simp [mkSlackWebHook, jsOrNum, hrate]
  have h1 : (mkSlackWebHook options t0).limitWindowSeconds = .fin 30 := by
    simp [mkSlackWebHook, jsOrNum, hwin]
  have h := runOps_preserves_config ops (mkSlackWebHook options t0)
  exact not_exceeded_of_rate_inf _ now (h.1.trans h0) (h.2.trans h1)

/-- C7 witness: a concrete default-configured sink after a send and a log
call still reports not exceeded. -/
theorem C7_witness :
    emptyOptions.limitPerSecond = none
    ∧ ¬ SlackWebHook.isRateLimitExceeded
        (runOps (mkSlackWebHook emptyOptions 0)
          [SinkOp.recordOp 0, SinkOp.logOp "info" "hello" (some []) Callback.user 0]) 0 :=
  ⟨rfl, C7_infinity_never_exceeded emptyOptions 0
    [SinkOp.recordOp 0, SinkOp.logOp "info" "hello" (some []) Callback.user 0] 0 rfl rfl⟩

/-- An options object passing `limitPerSecond: 0`. -/
noncomputable def zeroRateOptions : Options :=
  { emptyOptions with limitPerSecond := some (.fin 0) }

/-- C6 counterexample: a sink constructed with `ratePerSecond = 0` is *not*
over budget after one recorded send — the claim that every later call sees
`isExceeded() = true` fails already for the very next call.  The constructor
runs `options.limitPerSecond || Infinity`, and `0` is falsy, so the limit is
replaced by `Infinity` and the check compares against an infinite budget. -/
theorem C6_counterexample :
    ¬ SlackWebHook.isRateLimitExceeded
        (SlackWebHook.incrementLimitSent (mkSlackWebHook zeroRateOptions 0) 0) 0 := by
  have h0 : (mkSlackWebHook zeroRateOptions 0).limitPerSecond = .inf := by
    simp [mkSlackWebHook, zeroRateOptions, jsOrNum, jsTruthy]
  have h1 : (mkSlackWebHook zeroRateOptions 0).limitWindowSeconds = .fin 30 := by
    simp [mkSlackWebHook, zeroRateOptions, emptyOptions, jsOrNum]
  exact not_exceeded_of_rate_inf _ 0 h0 h1

/-- C6 amended: constructing the sink with `ratePerSecond = 0` disables
limiting entirely — the `|| Infinity` default treats `0` as unset, so after
any sequence of `log` and `incrementLimitSent` operations `isExceeded()` is
still false and no message is ever discarded for rate reasons. -/
theorem C6_zero_rate_disables_limiting (ops : List SinkOp) (now : ℝ) :
    ¬ SlackWebHook.isRateLimitExceeded (runOps (mkSlackWebHook zeroRateOptions 0) ops) now := by
  have h0 : (mkSlackWebHook zeroRateOptions 0).limitPerSecond = .inf := by
    simp [mkSlackWebHook, zeroRateOptions, jsOrNum, jsTruthy]
  have h1 : (mkSlackWebHook zeroRateOptions 0).limitWindowSeconds = .fin 30 := by
    simp [mkSlackWebHook, zeroRateOptions, emptyOptions, jsOrNum]
  have h := runOps_preserves_config ops (mkSlackWebHook zeroRateOptions 0)
  exact not_exceeded_of_rate_inf _ now (h.1.trans h0) (h.2.trans h1)

end WinstonSlack

namespace WinstonSlack

lemma isExceeded_setDiscarded (s : SlackWebHook) (k : ℕ) (t : ℝ) :
    SlackWebHook.isRateLimitExceeded { s with limitNumDiscarded := k } t
      ↔ s.isRateLimitExceeded t := Iff.rfl

/-- The arguments of one `log` call. -/
structure LogCall where
  level : String
  msg : String
  meta : Option Meta
  cb : Callback
  t : ℝ

/-- Runs a sequence of `log` calls, accumulating every POST issued. -/
noncomputable def runLogs (s : SlackWebHook) : List LogCall → SlackWebHook × List SendEvent
  | [] => (s, [])
  | c :: rest =>
    ((runLogs (s.log c.level c.msg c.meta c.cb c.t).state rest).1,
      (s.log c.level c.msg c.meta c.cb c.t).sends
        ++ (runLogs (s.log c.level c.msg c.meta c.cb c.t).state rest).2)

/-- C4: from a state with no pending discards, three `log` calls while over
budget followed by one while under budget issue exactly two POSTs in total:
first a warn-level discard notice whose message names the count 3, with
empty metadata and the no-op callback, then the fourth real message with the
caller's level, message, metadata and callback.  The discard counter ends at
zero and the final limiter state is exactly two `incrementLimitSent` updates
applied at the fourth call's time — `log` never consults a delivery outcome,
so both are recorded at send-attempt time. -/
theorem C4_discard_aggregation (s : SlackWebHook) (t1 t2 t3 t4 : ℝ)
    (lv1 lv2 lv3 level ms1 ms2 ms3 msg : String)
    (mt1 mt2 mt3 : Option Meta) (m : Meta) (cb1 cb2 cb3 cb : Callback)
    (hd : s.limitNumDiscarded = 0)
    (h1 : s.isRateLimitExceeded t1) (h2 : s.isRateLimitExceeded t2)
    (h3 : s.isRateLimitExceeded t3) (h4 : ¬ s.isRateLimitExceeded t4) :
    ∃ eN eR : SendEvent,
      (runLogs s [⟨lv1, ms1, mt1, cb1, t1⟩, ⟨lv2, ms2, mt2, cb2, t2⟩,
          ⟨lv3, ms3, mt3, cb3, t3⟩, ⟨level, msg, some m, cb, t4⟩]).2 = [eN, eR]
      ∧ eN.level = "warn"
      ∧ eN.msg = "winston-slack-webhook discarded 3 messages"
      ∧ eN.meta = [] ∧ eN.cb = Callback.noop
      ∧ eR.level = level ∧ eR.msg = msg ∧ eR.meta = m ∧ eR.cb = cb
      ∧ (runLogs s [⟨lv1, ms1, mt1, cb1, t1⟩, ⟨lv2, ms2, mt2, cb2, t2⟩,
          ⟨lv3, ms3, mt3, cb3, t3⟩, ⟨level, msg, some m, cb, t4⟩]).1.limitNumDiscarded = 0
      ∧ (runLogs s [⟨lv1, ms1, mt1, cb1, t1⟩, ⟨lv2, ms2, mt2, cb2, t2⟩,
          ⟨lv3, ms3, mt3, cb3, t3⟩, ⟨level, msg, some m, cb, t4⟩]).1 =
          SlackWebHook.incrementLimitSent
            (SlackWebHook.incrementLimitSent { s with limitNumDiscarded := 0 } t4) t4 := by
  have e1 : s.log lv1 ms1 mt1 cb1 t1 =
      { state := { s with limitNumDiscarded := s.limitNumDiscarded + 1 },
        sends := [], thrown := none } := by
    simp [SlackWebHook.log, h1]
  have ed : ∀ (k : ℕ) (lv ms : String) (mt : Option Meta) (c : Callback) (t : ℝ),
      s.isRateLimitExceeded t →
      SlackWebHook.log { s with limitNumDiscarded := k } lv ms mt c t =
        { state := { s with limitNumDiscarded := k + 1 }, sends := [], thrown := none } := by
    intro k lv ms mt c t ht
    simp [SlackWebHook.log, isExceeded_setDiscarded, ht]
  have hmsg : ("winston-slack-webhook discarded " ++ toString (3 : ℕ) ++ " messages")
      = "winston-slack-webhook discarded 3 messages" := by decide
  simp only [runLogs, e1, hd, ed 1 lv2 ms2 mt2 cb2 t2 h2, ed 2 lv3 ms3 mt3 cb3 t3 h3]
  simp only [SlackWebHook.log, isExceeded_setDiscarded, h4, if_false,
    SlackWebHook.sendSlackLog]
  norm_num
  exact ⟨_, _, ⟨rfl, rfl⟩, rfl, hmsg, rfl, rfl, rfl, rfl, rfl, rfl, rfl⟩

/-- A state over budget at time 0 and under budget one second later:
score 2, budget 1, decay rate `log 4` per second. -/
noncomputable def sampleDecay : SlackWebHook :=
  { sampleOver with limitLambda := .fin (Real.log 4) }

lemma sampleDecay_exceeded_now : SlackWebHook.isRateLimitExceeded sampleDecay 0 := by
  rw [isRateLimitExceeded_iff_fin sampleDecay 2 (Real.log 4) 1 1 0 rfl rfl rfl rfl]
  norm_num [sampleDecay, sampleOver, Real.exp_zero]

lemma sampleDecay_not_exceeded_late : ¬ SlackWebHook.isRateLimitExceeded sampleDecay 1000 := by
  rw [isRateLimitExceeded_iff_fin sampleDecay 2 (Real.log 4) 1 1 1000 rfl rfl rfl rfl]
  have h1 : ((1000 : ℝ) - sampleDecay.limitLastUpdate) / 1000 = 1 := by
    norm_num [sampleDecay, sampleOver]
  have h2 : Real.exp (-Real.log 4 * 1) = (4:ℝ)⁻¹ := by
    rw [mul_one, Real.exp_neg, Real.exp_log (by norm_num : (0:ℝ) < 4)]
  rw [h1, h2]
  norm_num

/-- C4 witness: the theorem evaluated on the concrete decaying state, three
suppressed messages at time 0 and an accepted one a second later. -/
theorem C4_witness :
    SlackWebHook.isRateLimitExceeded sampleDecay 0
    ∧ ¬ SlackWebHook.isRateLimitExceeded sampleDecay 1000
    ∧ ∃ eN eR : SendEvent,
        (runLogs sampleDecay
          [⟨"info", "a", some [], Callback.user, 0⟩, ⟨"info", "b", some [], Callback.user, 0⟩,
            ⟨"info", "c", some [], Callback.user, 0⟩,
            ⟨"warn", "d", some [], Callback.user, 1000⟩]).2 = [eN, eR]
        ∧ eN.msg = "winston-slack-webhook discarded 3 messages"
        ∧ eR.msg = "d" := by
  obtain ⟨eN, eR, hsends, _, hmsgN, _, _, _, hmsgR, _⟩ :=
    C4_discard_aggregation sampleDecay 0 0 0 1000 "info" "info" "info" "warn"
      "a" "b" "c" "d" (some []) (some []) (some []) []
      Callback.user Callback.user Callback.user Callback.user rfl
      sampleDecay_exceeded_now sampleDecay_exceeded_now sampleDecay_exceeded_now
      sampleDecay_not_exceeded_late
  exact ⟨sampleDecay_exceeded_now, sampleDecay_not_exceeded_late,
    eN, eR, hsends, hmsgN, hmsgR⟩

end WinstonSlack

namespace WinstonSlack

lemma incrementLimitSent_lastUpdate (s : SlackWebHook) (t : ℝ) :
    (s.incrementLimitSent t).limitLastUpdate = t := rfl

lemma limiter_mk_fields (r w t0 : ℝ) (hr : 0 < r) (hw : 0 < w) :
    (mkSlackWebHook (limiterOptions r w) t0).limitPerSecond = .fin r
    ∧ (mkSlackWebHook (limiterOptions r w) t0).limitWindowSeconds = .fin w
    ∧ (mkSlackWebHook (limiterOptions r w) t0).limitLambda
        = .fin (r * Real.log (1 / (r * w) + 1))
    ∧ (mkSlackWebHook (limiterOptions r w) t0).limitSent = .fin 0
    ∧ (mkSlackWebHook (limiterOptions r w) t0).limitLastUpdate = t0 := by
  have hrw : 0 < r * w := mul_pos hr hw
  have hargpos : 0 < 1 / (r * w) + 1 := by positivity
  have h1 : jsOrNum (limiterOptions r w).limitPerSecond .inf = .fin r := by
    simp [limiterOptions, emptyOptions, jsOrNum, jsTruthy, hr.ne']
  have h2 : jsOrNum (limiterOptions r w).limitWindowSeconds (.fin 30) = .fin w := by
    simp [limiterOptions, emptyOptions, jsOrNum, jsTruthy, hw.ne']
  refine ⟨h1, h2, ?_, rfl, rfl⟩
  show jsMul (jsOrNum (limiterOptions r w).limitPerSecond .inf)
      (jsLog (jsAdd (jsDiv (.fin 1)
        (jsMul (jsOrNum (limiterOptions r w).limitPerSecond .inf)
          (jsOrNum (limiterOptions r w).limitWindowSeconds (.fin 30)))) (.fin 1)))
      = .fin (r * Real.log (1 / (r * w) + 1))
  rw [h1, h2]
  have hmulrw : jsMul (.fin r) (.fin w) = .fin (r * w) := rfl
  have hdiv : jsDiv (.fin 1) (.fin (r * w)) = .fin (1 / (r * w)) := by
    simp [jsDiv, hrw.ne']
  have hadd : jsAdd (.fin (1 / (r * w))) (.fin 1) = .fin (1 / (r * w) + 1) := rfl
  have hlog : jsLog (.fin (1 / (r * w) + 1)) = .fin (Real.log (1 / (r * w) + 1)) := by
    rw [jsLog, if_pos hargpos]
  rw [hmulrw, hdiv, hadd, hlog]
  rfl

lemma steady_invariant (r w t0 ts : ℝ) (hr : 0 < r) (hw : 0 < w) : ∀ n : ℕ,
    (steadySends (mkSlackWebHook (limiterOptions r w) t0) ts (1000 / r) n).limitLambda
        = .fin (r * Real.log (1 / (r * w) + 1))
    ∧ (steadySends (mkSlackWebHook (limiterOptions r w) t0) ts (1000 / r) n).limitSent
        = .fin ((r * w + 1) * (1 - (r * w / (r * w + 1)) ^ n))
    ∧ SlackWebHook.getLimitSentAtDate
        (steadySends (mkSlackWebHook (limiterOptions r w) t0) ts (1000 / r) n)
        (ts + n * (1000 / r))
        = .fin (r * w * (1 - (r * w / (r * w + 1)) ^ n)) := by
  have hrw : 0 < r * w := mul_pos hr hw
  have hrw1 : (0:ℝ) < r * w + 1 := by linarith
  have hargpos : 0 < 1 / (r * w) + 1 := by positivity
  have hmk := limiter_mk_fields r w t0 hr hw
  have hmulq : (r * w + 1) * (r * w / (r * w + 1)) = r * w := by
    field_simp
  have hexp : Real.exp (-(r * Real.log (1 / (r * w) + 1)) * ((1000 / r) / 1000))
      = r * w / (r * w + 1) := by
    have h1000 : ((1000 : ℝ) / r) / 1000 = 1 / r := by
      field_simp
      ring
    have hcoef : -(r * Real.log (1 / (r * w) + 1)) * (1 / r)
        = -Real.log (1 / (r * w) + 1) := by
      field_simp
      ring
    have harg : 1 / (r * w) + 1 = (r * w + 1) / (r * w) := by
      field_simp
      ring
    rw [h1000, hcoef, Real.exp_neg, Real.exp_log hargpos, harg, inv_div]
  intro n
  induction n with
  | zero =>
    simp only [steadySends]
    refine ⟨hmk.2.2.1, ?_, ?_⟩
    · rw [hmk.2.2.2.1]
      norm_num
    · rw [getLimitSentAtDate_fin _ 0 (r * Real.log (1 / (r * w) + 1)) _
        hmk.2.2.2.1 hmk.2.2.1]
      norm_num
  | succ n ih =>
    obtain ⟨ihlam, ihsent, ihproj⟩ := ih
    have hstep : steadySends (mkSlackWebHook (limiterOptions r w) t0) ts (1000 / r) (n + 1)
        = (steadySends (mkSlackWebHook (limiterOptions r w) t0) ts (1000 / r) n).incrementLimitSent
            (ts + n * (1000 / r)) := rfl
    have hsent1 : (steadySends (mkSlackWebHook (limiterOptions r w) t0) ts (1000 / r)
        (n + 1)).limitSent
        = .fin ((r * w + 1) * (1 - (r * w / (r * w + 1)) ^ (n + 1))) := by
      rw [hstep]
      show jsAdd (SlackWebHook.getLimitSentAtDate _ _) (.fin 1) = _
      rw [ihproj]
      simp only [jsAdd]
      congr 1
      have expand : (r * w + 1) * (1 - (r * w / (r * w + 1)) ^ (n + 1))
          = (r * w + 1) - ((r * w + 1) * (r * w / (r * w + 1))) * (r * w / (r * w + 1)) ^ n := by
        ring
      rw [expand, hmulq]
      ring
    refine ⟨ihlam, hsent1, ?_⟩
    rw [getLimitSentAtDate_fin _ ((r * w + 1) * (1 - (r * w / (r * w + 1)) ^ (n + 1)))
      (r * Real.log (1 / (r * w) + 1)) _ hsent1 ihlam]
    rw [hstep, incrementLimitSent_lastUpdate]
    have hdiff : (ts + (n + 1 : ℕ) * (1000 / r) - (ts + n * (1000 / r))) / 1000
        = (1000 / r) / 1000 := by
      push_cast
      ring
    rw [hdiff, hexp]
    congr 1
    have expand2 : r * w * (1 - (r * w / (r * w + 1)) ^ (n + 1))
        = ((r * w + 1) * (r * w / (r * w + 1))) * (1 - (r * w / (r * w + 1)) ^ (n + 1)) := by
      rw [hmulq]
    rw [expand2]
    ring

/-- C1: for a sink built with finite `ratePerSecond = r > 0` and
`windowSeconds = w > 0` (so `decayRate = r * ln(1/(r*w) + 1)` by
construction), and sends recorded every `1/r` seconds (`1000/r`
milliseconds), the score projected immediately before each send is a real
number that strictly increases with the send index, never exceeds the
budget `r * w`, and converges to `r * w`. -/
theorem C1_steady_rate_convergence (r w t0 ts : ℝ) (hr : 0 < r) (hw : 0 < w) :
    ∃ p : ℕ → ℝ,
      (∀ n : ℕ,
        SlackWebHook.getLimitSentAtDate
          (steadySends (mkSlackWebHook (limiterOptions r w) t0) ts (1000 / r) n)
          (ts + n * (1000 / r)) = JsNum.fin (p n))
      ∧ StrictMono p
      ∧ (∀ n, p n ≤ r * w)
      ∧ Filter.Tendsto p Filter.atTop (nhds (r * w)) := by
  have hrw : 0 < r * w := mul_pos hr hw
  have hrw1 : (0:ℝ) < r * w + 1 := by linarith
  have hq0 : 0 < r * w / (r * w + 1) := div_pos hrw hrw1
  have hq1 : r * w / (r * w + 1) < 1 := by
    rw [div_lt_one hrw1]
    linarith
  refine ⟨fun n => r * w * (1 - (r * w / (r * w + 1)) ^ n), ?_, ?_, ?_, ?_⟩
  · exact fun n => (steady_invariant r w t0 ts hr hw n).2.2
  · apply strictMono_nat_of_lt_succ
    intro n
    have hpow : (r * w / (r * w + 1)) ^ (n + 1) < (r * w / (r * w + 1)) ^ n := by
      calc (r * w / (r * w + 1)) ^ (n + 1)
          = (r * w / (r * w + 1)) ^ n * (r * w / (r * w + 1)) := by ring
        _ < (r * w / (r * w + 1)) ^ n * 1 :=
            mul_lt_mul_of_pos_left hq1 (pow_pos hq0 n)
        _ = (r * w / (r * w + 1)) ^ n := mul_one _
    have h1 : 1 - (r * w / (r * w + 1)) ^ n < 1 - (r * w / (r * w + 1)) ^ (n + 1) := by
      linarith
    exact mul_lt_mul_of_pos_left h1 hrw
  · intro n
    have h0 : 0 < (r * w / (r * w + 1)) ^ n := pow_pos hq0 n
    nlinarith
  · have hq : Filter.Tendsto (fun n : ℕ => (r * w / (r * w + 1)) ^ n)
        Filter.atTop (nhds 0) :=
      tendsto_pow_atTop_nhds_zero_of_lt_one hq0.le hq1
    have hsub : Filter.Tendsto (fun n : ℕ => 1 - (r * w / (r * w + 1)) ^ n)
        Filter.atTop (nhds (1 - 0)) :=
      Filter.Tendsto.sub tendsto_const_nhds hq
    have hmul : Filter.Tendsto (fun n : ℕ => r * w * (1 - (r * w / (r * w + 1)) ^ n))
        Filter.atTop (nhds (r * w * (1 - 0))) :=
      Filter.Tendsto.const_mul (r * w) hsub
    simpa using hmul

/-- C1 witness: the theorem evaluated at a concrete rate and window. -/
theorem C1_witness :
    (0:ℝ) < 1
    ∧ ∃ p : ℕ → ℝ,
      (∀ n : ℕ,
        SlackWebHook.getLimitSentAtDate
          (steadySends (mkSlackWebHook (limiterOptions 1 1) 0) 0 (1000 / 1) n)
          (0 + n * (1000 / 1)) = JsNum.fin (p n))
      ∧ StrictMono p
      ∧ (∀ n, p n ≤ 1 * 1)
      ∧ Filter.Tendsto p Filter.atTop (nhds (1 * 1)) :=
  ⟨by norm_num, C1_steady_rate_convergence 1 1 0 0 (by norm_num) (by norm_num)⟩

end WinstonSlack

namespace WinstonSlack

/-- C6 witness: concrete run — rate 0, one recorded send, next check still
reports not exceeded. -/
theorem C6_witness :
    ¬ SlackWebHook.isRateLimitExceeded
        (runOps (mkSlackWebHook zeroRateOptions 0) [SinkOp.recordOp 0]) 0 :=
  C6_zero_rate_disables_limiting [SinkOp.recordOp 0] 0

end WinstonSlack
